import Mathlib

/-!
Shallow embedding of the content-store core of the wiki server
(files: the main server file and config.go).

The embedded operations are:
  * goClean / goJoin2 / goDir  — Go's path.Clean, path.Join (two arguments)
    and path.Dir, translated byte for byte from the Go standard library
    (lexical algorithms; Go operates on bytes, we operate on characters,
    which agrees on the ASCII inputs considered here);
  * mkSubDir                   — the directory sandbox check of the server;
  * pageSave / loadPage        — Page.Save and LoadPage;
  * saveHandler / viewHandler / editHandler — the pure request/response
    content of Server.SaveHandler, Server.ViewHandler, Server.EditHandler.

The filesystem is modelled as an explicit state (set of directories plus an
association list of files), and every operation additionally returns the
trace of filesystem-effect operations it performed, so that frame conditions
("never touches a file", "no rename", "no commit") are statable.
-/

/-- One step of the backtracking loop of Go's path.Clean for a ".." element:
Go does out.w-- and then keeps decrementing while out.w > dotdot and the
character at the new out.w is not a slash.  The output buffer is kept as a
reversed list of characters, so decrementing w is dropping the head. -/
def cleanBacktrack (dotdot : Nat) : List Char → List Char
  | [] => []
  | c :: rest =>
    if dotdot < rest.length ∧ c ≠ '/' then cleanBacktrack dotdot rest
    else rest

/-- Main loop of Go's path.Clean.  The state is the remaining input, the
output buffer out (reversed) and the dotdot marker; rooted tells whether the
original path started with a slash.  The extra fuel argument makes the
recursion structural; every iteration consumes at least one input character,
so fuel equal to the input length is always enough. -/
def cleanLoop (rooted : Bool) : Nat → List Char → List Char → Nat → List Char
  | 0, _, out, _ => out
  | _ + 1, [], out, _ => out
  | fuel + 1, c :: r, out, dotdot =>
    if c = '/' then
      cleanLoop rooted fuel r out dotdot
    else if c = '.' ∧ (r = [] ∨ r.head? = some '/') then
      cleanLoop rooted fuel r out dotdot
    else if c = '.' ∧ r.head? = some '.' ∧ (r.tail = [] ∨ r.tail.head? = some '/') then
      if dotdot < out.length then
        cleanLoop rooted fuel r.tail (cleanBacktrack dotdot out) dotdot
      else if rooted then
        cleanLoop rooted fuel r.tail out dotdot
      else
        let out3 := '.' :: '.' :: (if 0 < out.length then '/' :: out else out)
        cleanLoop rooted fuel r.tail out3 out3.length
    else
      let elem := r.takeWhile (fun x => !(x == '/'))
      let rest := r.dropWhile (fun x => !(x == '/'))
      let out2 :=
        if (rooted ∧ out.length ≠ 1) ∨ (¬rooted ∧ out.length ≠ 0) then '/' :: out
        else out
      cleanLoop rooted fuel rest (elem.reverse ++ (c :: out2)) dotdot

/-- Go's path.Clean: the lexical simplification of a slash-separated path
(empty path becomes ".", "." and ".." elements are resolved, repeated
slashes collapse, an empty result becomes "."). -/
def goClean (p : String) : String :=
  if p = "" then "."
  else
    let cs := p.toList
    let out :=
      if cs.head? = some '/' then cleanLoop true cs.length cs.tail ['/'] 1
      else cleanLoop false cs.length cs [] 0
    if out = [] then "." else String.mk out.reverse

/-- The portion of a path up to and including its last slash, i.e.
path[:strings.LastIndex(path, "/") + 1] (empty when there is no slash),
which is the dir half of Go's path.Split. -/
def upToLastSlash (cs : List Char) : List Char :=
  (cs.reverse.dropWhile (fun c => !(c == '/'))).reverse

/-- Go's path.Dir: Clean of the dir half of Split. -/
def goDir (p : String) : String :=
  goClean (String.mk (upToLastSlash p.toList))

/-- Go's path.Join restricted to two arguments: empty when both are empty,
otherwise Clean of the concatenation with a slash between the nonempty
parts (Go appends the separator before every element once the buffer is
nonempty, so a trailing empty element still contributes a slash). -/
def goJoin2 (a b : String) : String :=
  if a = "" ∧ b = "" then ""
  else if a = "" then goClean b
  else goClean (a ++ "/" ++ b)

/-- FileExtension from config.go. -/
def FileExtension : String := ".md"

/-- Outcome of an embedded Go function: normal return of nil, return of a
non-nil error, or a run-time panic (abort). -/
inductive GoResult where
  | ok
  | err (msg : String)
  | panicked
deriving DecidableEq, Repr

/-- One observable filesystem / pipeline effect.  The embedded code emits
only mkdirAll and writeFile; rename, gitCommit and indexUpdate are part of
the vocabulary because the specification claims them. -/
inductive FsOp where
  | mkdirAll (dir : String)
  | writeFile (path : String) (content : List Nat)
  | rename (src dst : String)
  | gitCommit (message : String)
  | indexUpdate (title : String) (content : List Nat)
deriving DecidableEq, Repr

/-- Filesystem state: the set of existing directories and the files, a file
being a path with content bytes and a modification time.  Lookups take the
most recent entry, so prepending models an overwrite. -/
structure FS where
  dirs  : List String
  files : List (String × List Nat × Nat)
deriving DecidableEq, Repr

/-- The empty filesystem, the base state for the concrete scenarios. -/
def fs0 : FS := { dirs := [], files := [] }

/-- Look a path up among the files, most recent entry first. -/
def getFile : List (String × List Nat × Nat) → String → Option (List Nat × Nat)
  | [], _ => none
  | (q, c, t) :: rest, p => if q = p then some (c, t) else getFile rest p

/-- Chain of a directory and its ancestors, obtained by iterating path.Dir
until it reaches a fixpoint; the fuel bound makes the recursion structural
and is always sufficient because Dir shortens a cleaned path. -/
def parentChain : Nat → String → List String
  | 0, _ => []
  | n + 1, p => p :: (if goDir p = p then [] else parentChain n (goDir p))

/-- Model of os.MkdirAll: the directory and all its ancestors exist
afterwards; files are untouched. -/
def mkdirAll (fs : FS) (p : String) : FS :=
  { fs with dirs := parentChain (p.length + 1) p ++ fs.dirs }

/-- Model of ioutil.WriteFile: (over)writes the file at the path with the
given content at the given time. -/
def writeFile (fs : FS) (p : String) (content : List Nat) (now : Nat) : FS :=
  { fs with files := (p, content, now) :: fs.files }

/-- mkSubDir from the server source, with its effect trace:

  d := path.Clean(dir)
  sd := path.Dir(path.Clean(path.Join(d, file)))
  if sd[ 0:len(d) ] != d { return errors.New("File in wrong directory") }
  return os.MkdirAll(sd, 0755)

The Go slice expression sd[0:len(d)] panics when len(d) > len(sd); that
abort is the panicked outcome.  Otherwise the substring comparison decides
between the error and MkdirAll. -/
def mkSubDir (fs : FS) (dir file : String) : GoResult × FS × List FsOp :=
  let d := goClean dir
  let sd := goDir (goClean (goJoin2 d file))
  if sd.length < d.length then (GoResult.panicked, fs, [])
  else if sd.toList.take d.length ≠ d.toList then
    (GoResult.err "File in wrong directory", fs, [])
  else (GoResult.ok, mkdirAll fs sd, [FsOp.mkdirAll sd])

/-- Page.Save from the server source, with its effect trace:

  filename := p.Title + FileExtension
  filepath := path.Join(datadir, filename)
  if err := mkSubDir(datadir, filename); err != nil { return err }
  return ioutil.WriteFile(filepath, p.Body, 0600)

A panic inside mkSubDir propagates (the write never happens). -/
def pageSave (fs : FS) (now : Nat) (datadir title : String) (body : List Nat) :
    GoResult × FS × List FsOp :=
  let filename := title ++ FileExtension
  let filepath := goJoin2 datadir filename
  let m := mkSubDir fs datadir filename
  match m.1 with
  | GoResult.ok =>
    (GoResult.ok, writeFile m.2.1 filepath body now, m.2.2 ++ [FsOp.writeFile filepath body])
  | GoResult.err msg => (GoResult.err msg, m.2.1, m.2.2)
  | GoResult.panicked => (GoResult.panicked, m.2.1, m.2.2)

/-- Configuration fields consumed by the embedded operations (config.go also
carries listen, bind, git, csrf and indexdir fields, none of which is read
by the code embedded here). -/
structure Config where
  data : String
  brand : String
deriving DecidableEq, Repr

/-- The Page value produced by LoadPage and consumed by the templates.  The
rendered HTML field is omitted: the markdown pipeline (AutoCamelCase,
blackfriday, bluemonday) is an external collaborator outside the content
store core. -/
structure Page where
  title : String
  body  : List Nat
  date  : Nat
  brand : String
deriving DecidableEq, Repr

/-- LoadPage from the server source:

  filename := path.Join(config.data, title + FileExtension)
  body, err := ioutil.ReadFile(filename); if err != nil { return nil, err }
  fi, err := os.Stat(filename); mtime := fi.ModTime()
  return &Page{Title: title, Body: body, ..., Brand: config.brand, Date: mtime}

ReadFile and Stat are the single lookup in the file map, which yields both
the content and the modification time; none is the error return. -/
def loadPage (fs : FS) (config : Config) (title : String) : Option Page :=
  match getFile fs.files (goJoin2 config.data (title ++ FileExtension)) with
  | none => none
  | some (body, mtime) =>
    some { title := title, body := body, date := mtime, brand := config.brand }

/-- strings.TrimLeft(s, "/"): drop every leading slash. -/
def trimLeftSlash (s : String) : String :=
  String.mk (s.toList.dropWhile (fun c => c == '/'))

/-- Observable outcome of a request handler: an HTTP redirect, a rendered
template with its Page context, an http.Error response, or a crash of the
handler goroutine caused by a panic. -/
inductive HandlerResult where
  | redirect (url : String)
  | rendered (tmpl : String) (page : Page)
  | httpError (code : Nat) (msg : String)
  | crashed
deriving DecidableEq, Repr

/-- Server.SaveHandler: trims leading slashes off the title parameter, reads
the body form value, builds the Page and saves it; on success it redirects
to /view/<title>, on a save error it answers http.Error 500 with the error
text.  Form parsing is assumed to succeed (the body is given directly). -/
def saveHandler (fs : FS) (now : Nat) (config : Config) (rawTitle : String)
    (body : List Nat) : HandlerResult × FS × List FsOp :=
  let title := trimLeftSlash rawTitle
  let m := pageSave fs now config.data title body
  match m.1 with
  | GoResult.ok => (HandlerResult.redirect ("/view/" ++ title), m.2.1, m.2.2)
  | GoResult.err msg => (HandlerResult.httpError 500 msg, m.2.1, m.2.2)
  | GoResult.panicked => (HandlerResult.crashed, m.2.1, m.2.2)

/-- Server.ViewHandler: trims the title, loads the page; on success it
renders the view template, on a load error it redirects to /edit/<title>. -/
def viewHandler (fs : FS) (config : Config) (rawTitle : String) : HandlerResult :=
  let title := trimLeftSlash rawTitle
  match loadPage fs config title with
  | some page => HandlerResult.rendered "view" page
  | none => HandlerResult.redirect ("/edit/" ++ title)

/-- Server.EditHandler: trims the title, loads the page; on a load error it
renders the edit template with the fresh Page{Title: title, Brand: brand}
(zero-valued body and date), otherwise with the loaded page. -/
def editHandler (fs : FS) (config : Config) (rawTitle : String) : HandlerResult :=
  let title := trimLeftSlash rawTitle
  match loadPage fs config title with
  | some page => HandlerResult.rendered "edit" page
  | none =>
    HandlerResult.rendered "edit"
      { title := title, body := [], date := 0, brand := config.brand }

/-- Specification predicate (from the spec, not the source): a path is
within a root when it equals the root or is a strict descendant of it,
i.e. extends it past a slash boundary. -/
def isWithin (root p : String) : Prop :=
  p = root ∨ p.toList.take (root.length + 1) = (root ++ "/").toList

instance (root p : String) : Decidable (isWithin root p) := by
  unfold isWithin; infer_instance

/-- Recognizer for rename effects. -/
def isRenameOp : FsOp → Bool
  | FsOp.rename _ _ => true
  | _ => false

/-- Recognizer for version-control commit effects. -/
def isCommitOp : FsOp → Bool
  | FsOp.gitCommit _ => true
  | _ => false

/-- Recognizer for search-index update effects. -/
def isIndexOp : FsOp → Bool
  | FsOp.indexUpdate _ _ => true
  | _ => false

/-- Recognizer for directory-creation effects. -/
def isMkdirOp : FsOp → Bool
  | FsOp.mkdirAll _ => true
  | _ => false

/-! Helper lemmas shared by the claim theorems. -/

/-- mkSubDir never changes the file map, in any of its three outcomes. -/
theorem mkSubDir_files_eq (fs : FS) (dir file : String) :
    (mkSubDir fs dir file).2.1.files = fs.files := by
  simp only [mkSubDir]
  split
  · rfl
  · split
    · rfl
    · rfl

/-- When mkSubDir returns nil, it has performed exactly the MkdirAll of the
candidate directory. -/
theorem mkSubDir_ok_parts (fs : FS) (dir file : String)
    (hok : (mkSubDir fs dir file).1 = GoResult.ok) :
    mkSubDir fs dir file =
      (GoResult.ok, mkdirAll fs (goDir (goClean (goJoin2 (goClean dir) file))),
       [FsOp.mkdirAll (goDir (goClean (goJoin2 (goClean dir) file)))]) := by
  simp only [mkSubDir] at hok ⊢
  split at hok
  next h1 => simp at hok
  next h1 =>
    split at hok
    next h2 => simp at hok
    next h2 => rw [if_neg h1, if_neg h2]

/-- When Page.Save returns nil, the inner mkSubDir returned nil. -/
theorem pageSave_ok_sub (fs : FS) (now : Nat) (datadir title : String) (body : List Nat)
    (hok : (pageSave fs now datadir title body).1 = GoResult.ok) :
    (mkSubDir fs datadir (title ++ FileExtension)).1 = GoResult.ok := by
  simp only [pageSave] at hok
  cases h : (mkSubDir fs datadir (title ++ FileExtension)).1 with
  | ok => rfl
  | err m => rw [h] at hok; simp at hok
  | panicked => rw [h] at hok; simp at hok

/-- When Page.Save returns nil, its result is the mkSubDir state followed by
the single WriteFile of the body at path.Join(datadir, title+ext). -/
theorem pageSave_ok_parts (fs : FS) (now : Nat) (datadir title : String) (body : List Nat)
    (hok : (pageSave fs now datadir title body).1 = GoResult.ok) :
    pageSave fs now datadir title body =
      (GoResult.ok,
       writeFile (mkSubDir fs datadir (title ++ FileExtension)).2.1
         (goJoin2 datadir (title ++ FileExtension)) body now,
       (mkSubDir fs datadir (title ++ FileExtension)).2.2
         ++ [FsOp.writeFile (goJoin2 datadir (title ++ FileExtension)) body]) := by
  simp only [pageSave] at hok ⊢
  cases h : (mkSubDir fs datadir (title ++ FileExtension)).1 with
  | ok => rfl
  | err m => rw [h] at hok; simp at hok
  | panicked => rw [h] at hok; simp at hok

/-- Loading a title right after a write of its joined path yields exactly
the written content and time. -/
theorem loadPage_writeFile (fs : FS) (config : Config) (title : String)
    (body : List Nat) (t : Nat) :
    loadPage (writeFile fs (goJoin2 config.data (title ++ FileExtension)) body t) config title
      = some { title := title, body := body, date := t, brand := config.brand } := by
  unfold loadPage writeFile
  simp [getFile]

/-! Claim theorems. -/

/-- C1: the specification says mkSubDir fails with a path-escape error
exactly when the normalized candidate directory is not equal to or a
descendant of the normalized root, and in particular that a sibling
directory sharing the root as a string prefix is rejected.  The code
instead accepts the sibling: with root "/data" and file
"../data-evil/x.md" the candidate directory normalizes to "/data-evil",
which is not within "/data", yet mkSubDir returns nil and creates the
escaping directory. -/
theorem c1_sibling_dir_escape :
    (mkSubDir fs0 "/data" "../data-evil/x.md").1 = GoResult.ok ∧
    ¬ isWithin "/data" (goDir (goClean (goJoin2 (goClean "/data") "../data-evil/x.md"))) ∧
    "/data-evil" ∈ (mkSubDir fs0 "/data" "../data-evil/x.md").2.1.dirs := by
  decide

/-- C2: the specification says every title containing "../" segments makes
the resolution fail with a path-escape error and mutate nothing.  The code
does neither uniformly: saving the title "../../etc/passwd" under root
"/data" panics (candidate dir "/etc" is shorter than the root, so the
slice sd[0:len(d)] aborts), and saving the title "../databases/x" succeeds
and creates the escaping directory "/databases". -/
theorem c2_traversal_not_rejected :
    (pageSave fs0 0 "/data" "../../etc/passwd" [65]).1 = GoResult.panicked ∧
    (pageSave fs0 0 "/data" "../databases/x" [66]).1 = GoResult.ok ∧
    ¬ isWithin "/data" (goDir (goClean (goJoin2 (goClean "/data") "../databases/x.md"))) ∧
    "/databases" ∈ (pageSave fs0 0 "/data" "../databases/x" [66]).2.1.dirs := by
  decide

/-- C3: the claim says mkSubDir is total and that sd[0:len(d)] is in bounds
for every input.  It is not: with root "/data" and file ".." the candidate
directory cleans to "/", strictly shorter than the cleaned root, so the Go
slice is out of bounds and the function panics instead of returning. -/
theorem c3_slice_out_of_bounds_abort :
    (mkSubDir fs0 "/data" "..").1 = GoResult.panicked ∧
    (goDir (goClean (goJoin2 (goClean "/data") ".."))).length
      < (goClean "/data").length := by
  decide

/-- C4 counterexample: the claim says Page.Save writes the body to a
temporary location and atomically renames it into place.  At a concrete
input the successful save performs no rename at all, and its only write
goes directly to the final page path. -/
theorem c4_no_rename_in_save :
    (pageSave fs0 7 "/data" "HomePage" [104]).1 = GoResult.ok ∧
    (pageSave fs0 7 "/data" "HomePage" [104]).2.2.filter isRenameOp = [] ∧
    FsOp.writeFile "/data/HomePage.md" [104]
      ∈ (pageSave fs0 7 "/data" "HomePage" [104]).2.2 := by
  decide

/-- C4 amended: a successful Page.Save ensures the directory exists
(MkdirAll) and then writes the body directly to the final path with a
single WriteFile; it never uses a temporary file or a rename, so no
atomic-rename discipline protects against partial writes. -/
theorem c4_save_writes_in_place (fs : FS) (now : Nat) (datadir title : String)
    (body : List Nat)
    (hok : (pageSave fs now datadir title body).1 = GoResult.ok) :
    (pageSave fs now datadir title body).2.2 =
      [FsOp.mkdirAll (goDir (goClean (goJoin2 (goClean datadir) (title ++ FileExtension)))),
       FsOp.writeFile (goJoin2 datadir (title ++ FileExtension)) body] ∧
    (pageSave fs now datadir title body).2.2.filter isRenameOp = [] := by
  have hsub := pageSave_ok_sub fs now datadir title body hok
  have h2 := pageSave_ok_parts fs now datadir title body hok
  rw [h2, mkSubDir_ok_parts fs datadir (title ++ FileExtension) hsub]
  exact ⟨rfl, rfl⟩

/-- C4 witness: the amended statement at a concrete input. -/
theorem c4_save_writes_in_place_witness :
    (pageSave fs0 3 "/data" "FrontPage" [104, 105]).1 = GoResult.ok ∧
    (pageSave fs0 3 "/data" "FrontPage" [104, 105]).2.2 =
      [FsOp.mkdirAll "/data", FsOp.writeFile "/data/FrontPage.md" [104, 105]] ∧
    (pageSave fs0 3 "/data" "FrontPage" [104, 105]).2.2.filter isRenameOp = [] :=
  ⟨by decide,
   by rw [(c4_save_writes_in_place fs0 3 "/data" "FrontPage" [104, 105] (by decide)).1]
      decide,
   (c4_save_writes_in_place fs0 3 "/data" "FrontPage" [104, 105] (by decide)).2⟩

/-- C5 counterexample: the claim says every successful save performs a
version-control commit and a search-index update after the write.  At a
concrete input the save handler succeeds (redirects to the view route)
while its effect trace contains no commit and no index update. -/
theorem c5_no_commit_no_index_on_save :
    (saveHandler fs0 0 ⟨"/data", "wiki"⟩ "/AboutPage" [119]).1
      = HandlerResult.redirect "/view/AboutPage" ∧
    (saveHandler fs0 0 ⟨"/data", "wiki"⟩ "/AboutPage" [119]).2.2.filter isCommitOp = [] ∧
    (saveHandler fs0 0 ⟨"/data", "wiki"⟩ "/AboutPage" [119]).2.2.filter isIndexOp = [] := by
  decide

/-- C5 amended: a successful save request performs exactly the directory
creation and the single write of the page bytes, then redirects to the
view route; the save handler performs no version-control commit and no
search-index update. -/
theorem c5_save_write_and_redirect_only (fs : FS) (now : Nat) (config : Config)
    (rawTitle : String) (body : List Nat)
    (hok : (pageSave fs now config.data (trimLeftSlash rawTitle) body).1 = GoResult.ok) :
    (saveHandler fs now config rawTitle body).1
        = HandlerResult.redirect ("/view/" ++ trimLeftSlash rawTitle) ∧
    (saveHandler fs now config rawTitle body).2.2 =
      [FsOp.mkdirAll (goDir (goClean (goJoin2 (goClean config.data)
          (trimLeftSlash rawTitle ++ FileExtension)))),
       FsOp.writeFile (goJoin2 config.data (trimLeftSlash rawTitle ++ FileExtension)) body] ∧
    (saveHandler fs now config rawTitle body).2.2.filter isCommitOp = [] ∧
    (saveHandler fs now config rawTitle body).2.2.filter isIndexOp = [] := by
  have hsub := pageSave_ok_sub fs now config.data (trimLeftSlash rawTitle) body hok
  have h2 := pageSave_ok_parts fs now config.data (trimLeftSlash rawTitle) body hok
  simp only [saveHandler]
  rw [h2, mkSubDir_ok_parts fs config.data (trimLeftSlash rawTitle ++ FileExtension) hsub]
  exact ⟨rfl, rfl, rfl, rfl⟩

/-- C5 witness: the amended statement at a concrete input. -/
theorem c5_save_write_and_redirect_only_witness :
    (pageSave fs0 2 "/data" (trimLeftSlash "/FrontPage") [104]).1 = GoResult.ok ∧
    (saveHandler fs0 2 ⟨"/data", "wiki"⟩ "/FrontPage" [104]).1
      = HandlerResult.redirect "/view/FrontPage" ∧
    (saveHandler fs0 2 ⟨"/data", "wiki"⟩ "/FrontPage" [104]).2.2.filter isCommitOp = [] ∧
    (saveHandler fs0 2 ⟨"/data", "wiki"⟩ "/FrontPage" [104]).2.2.filter isIndexOp = [] :=
  have h := c5_save_write_and_redirect_only fs0 2 ⟨"/data", "wiki"⟩ "/FrontPage" [104]
    (by decide)
  ⟨by decide, by rw [h.1]; decide, h.2.2.1, h.2.2.2⟩

/-- C6: round-trip.  For every state, time and title, if Page.Save succeeds
then LoadPage of the same title succeeds and returns exactly the saved
body, with a modification time equal to the save time, hence no earlier
than any instant t0 before the save. -/
theorem c6_save_then_load_roundtrip (fs : FS) (t0 now : Nat) (config : Config)
    (title : String) (body : List Nat)
    (ht : t0 ≤ now)
    (hok : (pageSave fs now config.data title body).1 = GoResult.ok) :
    loadPage (pageSave fs now config.data title body).2.1 config title
      = some { title := title, body := body, date := now, brand := config.brand }
    ∧ t0 ≤ now := by
  refine ⟨?_, ht⟩
  rw [pageSave_ok_parts fs now config.data title body hok]
  exact loadPage_writeFile (mkSubDir fs config.data (title ++ FileExtension)).2.1
    config title body now

/-- C6 witness: the round-trip at a concrete input. -/
theorem c6_save_then_load_roundtrip_witness :
    (0 : Nat) ≤ 5 ∧
    (pageSave fs0 5 "/data" "FrontPage" [72, 105]).1 = GoResult.ok ∧
    (loadPage (pageSave fs0 5 "/data" "FrontPage" [72, 105]).2.1 ⟨"/data", "w"⟩ "FrontPage"
       = some { title := "FrontPage", body := [72, 105], date := 5, brand := "w" }
     ∧ (0 : Nat) ≤ 5) :=
  ⟨by decide, by decide,
   c6_save_then_load_roundtrip fs0 0 5 ⟨"/data", "w"⟩ "FrontPage" [72, 105]
     (by decide) (by decide)⟩

/-- C7: last-writer-wins.  After two sequential successful saves of the
same title with bodies b1 then b2, loading the title returns b2 with the
second save's time. -/
theorem c7_last_writer_wins (fs : FS) (t1 t2 : Nat) (config : Config)
    (title : String) (b1 b2 : List Nat)
    (h1 : (pageSave fs t1 config.data title b1).1 = GoResult.ok)
    (h2 : (pageSave (pageSave fs t1 config.data title b1).2.1 t2 config.data title b2).1
        = GoResult.ok) :
    loadPage (pageSave (pageSave fs t1 config.data title b1).2.1 t2 config.data title b2).2.1
        config title
      = some { title := title, body := b2, date := t2, brand := config.brand } := by
  rw [pageSave_ok_parts _ _ _ _ _ h2]
  exact loadPage_writeFile _ config title b2 t2

/-- C7 witness: two saves of the same title at a concrete input. -/
theorem c7_last_writer_wins_witness :
    (pageSave fs0 1 "/data" "FrontPage" [66, 49]).1 = GoResult.ok ∧
    (pageSave (pageSave fs0 1 "/data" "FrontPage" [66, 49]).2.1 2 "/data" "FrontPage" [66, 50]).1
      = GoResult.ok ∧
    loadPage
        (pageSave (pageSave fs0 1 "/data" "FrontPage" [66, 49]).2.1 2 "/data" "FrontPage"
          [66, 50]).2.1
        ⟨"/data", "w"⟩ "FrontPage"
      = some { title := "FrontPage", body := [66, 50], date := 2, brand := "w" } :=
  ⟨by decide, by decide,
   c7_last_writer_wins fs0 1 2 ⟨"/data", "w"⟩ "FrontPage" [66, 49] [66, 50]
     (by decide) (by decide)⟩

/-- C8: when loading a title fails, the view handler redirects to the edit
route for that title, and the edit handler renders the edit template with a
fresh empty page carrying that title (zero-valued body and date). -/
theorem c8_missing_page_edit_flow (fs : FS) (config : Config) (rawTitle : String)
    (hnone : loadPage fs config (trimLeftSlash rawTitle) = none) :
    viewHandler fs config rawTitle
        = HandlerResult.redirect ("/edit/" ++ trimLeftSlash rawTitle) ∧
    editHandler fs config rawTitle
        = HandlerResult.rendered "edit"
            { title := trimLeftSlash rawTitle, body := [], date := 0,
              brand := config.brand } := by
  constructor
  · simp only [viewHandler]
    rw [hnone]
  · simp only [editHandler]
    rw [hnone]

/-- C8 witness: the create-new-page flow for an absent page. -/
theorem c8_missing_page_edit_flow_witness :
    loadPage fs0 ⟨"/data", "w"⟩ (trimLeftSlash "/NewPage") = none ∧
    viewHandler fs0 ⟨"/data", "w"⟩ "/NewPage"
      = HandlerResult.redirect ("/edit/" ++ trimLeftSlash "/NewPage") ∧
    editHandler fs0 ⟨"/data", "w"⟩ "/NewPage"
      = HandlerResult.rendered "edit"
          { title := trimLeftSlash "/NewPage", body := [], date := 0, brand := "w" } :=
  ⟨by decide,
   (c8_missing_page_edit_flow fs0 ⟨"/data", "w"⟩ "/NewPage" (by decide)).1,
   (c8_missing_page_edit_flow fs0 ⟨"/data", "w"⟩ "/NewPage" (by decide)).2⟩

/-- C9: on successful resolution, the candidate directory and every one of
its ancestors exist in the resulting state (MkdirAll), and the previously
existing directories are preserved. -/
theorem c9_mkSubDir_creates_dirs (fs : FS) (dir file : String)
    (hok : (mkSubDir fs dir file).1 = GoResult.ok) :
    parentChain ((goDir (goClean (goJoin2 (goClean dir) file))).length + 1)
        (goDir (goClean (goJoin2 (goClean dir) file)))
      ⊆ (mkSubDir fs dir file).2.1.dirs
    ∧ fs.dirs ⊆ (mkSubDir fs dir file).2.1.dirs := by
  rw [mkSubDir_ok_parts fs dir file hok]
  exact ⟨List.subset_append_left _ _, List.subset_append_right _ _⟩

/-- C9 witness: resolving "sub/Page" under "/data" succeeds and both
"/data/sub" and "/data" exist afterwards. -/
theorem c9_mkSubDir_creates_dirs_witness :
    (mkSubDir fs0 "/data" "sub/Page.md").1 = GoResult.ok ∧
    "/data/sub" ∈ (mkSubDir fs0 "/data" "sub/Page.md").2.1.dirs ∧
    "/data" ∈ (mkSubDir fs0 "/data" "sub/Page.md").2.1.dirs :=
  ⟨by decide,
   (c9_mkSubDir_creates_dirs fs0 "/data" "sub/Page.md" (by decide)).1 (by decide),
   (c9_mkSubDir_creates_dirs fs0 "/data" "sub/Page.md" (by decide)).1 (by decide)⟩

/-- C10: mkSubDir never creates, modifies or touches a file: for every
input the file map is unchanged and every effect in its trace is a
directory creation. -/
theorem c10_mkSubDir_touches_no_files (fs : FS) (dir file : String) :
    (mkSubDir fs dir file).2.1.files = fs.files ∧
    (mkSubDir fs dir file).2.2.filter (fun op => !(isMkdirOp op)) = [] := by
  simp only [mkSubDir]
  split
  · exact ⟨rfl, rfl⟩
  · split
    · exact ⟨rfl, rfl⟩
    · exact ⟨rfl, rfl⟩
